import Mathlib

/-! Verification of the risk-gating and trade-lifecycle core of the Scalp-V0
trading agent.  The Lean definitions below are a shallow embedding of the
Python sources:

* `src/core/state_manager.py`   (the protective account state machine),
* `src/risk/risk_manager.py`    (position sizing),
* `src/execution/order_executor.py` (order lifecycle / reconciliation).

Modelling conventions:

* Python `float` values (prices, pnl, percentages) are embedded as `ℚ`;
  the arithmetic of the source is exact over the rationals.
* `datetime` values are embedded as integer Unix timestamps in seconds;
  `timedelta(minutes=m)` becomes `60 * m` and the UTC calendar day of a
  timestamp is its floor-division by 86400.
* Millisecond execution timestamps (`exec_time_ms`) stay integers (ms).
* Mutating methods become pure functions `state → state` (together with
  their return value where the Python method returns one).
* Python truthiness tests are embedded literally: a test on an optional
  float such as `if self._limited_exit_equity:` is false both for `None`
  and for `0.0`, and a test on a string is false exactly for `""`.
-/

set_option maxRecDepth 8000

namespace ScalpV0

/-- Protection modes of the account state machine (`BotMode` in
`core/state_manager.py`). -/
inductive BotMode
  | NORMAL
  | COOLDOWN
  | LIMITED
  | HALT
  deriving DecidableEq

/-- Per trading-day counters (`SessionStats`).  `trading_day` is the UTC day
number (the Python source keeps the ISO date string; day numbers are in
bijection with date strings, and only equality of days is ever used). -/
structure SessionStats where
  trading_day : Int
  daily_pnl : ℚ
  daily_trades : Nat
  consecutive_losses : Nat
  deriving DecidableEq

/-- Account-lifetime counters (`EquityStats`). -/
structure EquityStats where
  cumulative_pnl : ℚ
  peak_equity : ℚ
  max_drawdown_pct : ℚ
  deriving DecidableEq

/-- A finalized trade fed into the state machine (`TradeResult`). -/
structure TradeResult where
  pnl : ℚ
  timestamp : Int
  fees : ℚ
  deriving DecidableEq

/-- `TradeResult.net_pnl`. -/
def TradeResult.net_pnl (t : TradeResult) : ℚ := t.pnl - t.fees

/-- `TradeResult.is_loss`. -/
def TradeResult.is_loss (t : TradeResult) : Bool := decide (t.net_pnl < 0)

/-- The slice of `ProfileConfig` consumed by the verified components. -/
structure ProfileConfig where
  risk_per_trade_pct : ℚ
  max_daily_loss_pct : ℚ
  max_consecutive_losses_for_cooldown : Nat
  deriving DecidableEq

/-- The slice of `RiskLimitsConfig` consumed by the verified components. -/
structure RiskLimitsConfig where
  reference_account_size_usdt : ℚ
  cooldown_short_minutes : Int
  cooldown_long_minutes : Int
  limited_mode_duration_minutes : Int
  limited_mode_recovery_pct : ℚ
  global_drawdown_pct : ℚ
  deriving DecidableEq

/-- The slice of `BotConfig` consumed by the verified components. -/
structure BotConfig where
  profile : ProfileConfig
  risk_limits : RiskLimitsConfig
  deriving DecidableEq

/-- The mutable state owned by `StateManager`.  `cooldown_short_count` and
`cooldown_long_count` embed the two entries of the `_cooldown_counters`
dict. -/
structure StateManager where
  mode : BotMode
  session_stats : SessionStats
  equity_stats : EquityStats
  cooldown_until : Option Int
  next_mode_after_cooldown : BotMode
  limited_until : Option Int
  limited_exit_equity : Option ℚ
  internal_version : String
  cooldown_short_count : Nat
  cooldown_long_count : Nat
  cooldown_enabled : Bool
  deriving DecidableEq

/-- UTC calendar-day number of a Unix timestamp in seconds. -/
def utcDay (ts : Int) : Int := ts.fdiv 86400

/-- `StateManager._max_daily_loss_abs`. -/
def maxDailyLossAbs (cfg : BotConfig) : ℚ :=
  cfg.risk_limits.reference_account_size_usdt * cfg.profile.max_daily_loss_pct

/-- `StateManager._current_equity`. -/
def currentEquity (cfg : BotConfig) (s : StateManager) : ℚ :=
  cfg.risk_limits.reference_account_size_usdt + s.equity_stats.cumulative_pnl

/-- `StateManager._maybe_roll_daily_stats`. -/
def maybeRollDailyStats (ts : Int) (s : StateManager) : StateManager :=
  if utcDay ts ≠ s.session_stats.trading_day then
    { s with session_stats :=
        { trading_day := utcDay ts, daily_pnl := 0, daily_trades := 0, consecutive_losses := 0 } }
  else s

/-- `StateManager._update_drawdown_metrics`. -/
def updateDrawdownMetrics (cfg : BotConfig) (s : StateManager) : StateManager :=
  let ref := cfg.risk_limits.reference_account_size_usdt
  let current := ref + s.equity_stats.cumulative_pnl
  let peak := max s.equity_stats.peak_equity current
  let s1 := { s with equity_stats := { s.equity_stats with peak_equity := peak } }
  if s1.equity_stats.peak_equity ≤ 0 then s1
  else
    let drawdown := (s1.equity_stats.peak_equity - current) / s1.equity_stats.peak_equity
    { s1 with equity_stats :=
        { s1.equity_stats with
          max_drawdown_pct := max s1.equity_stats.max_drawdown_pct drawdown } }

/-- `StateManager._enter_cooldown`. -/
def enterCooldown (cfg : BotConfig) (now : Int) (minutes : Int) (next_mode : BotMode)
    (s : StateManager) : StateManager :=
  if minutes ≤ 0 then { s with mode := next_mode }
  else
    let expiry := now + 60 * minutes
    let s1 := { s with
      mode := BotMode.COOLDOWN
      cooldown_until := some expiry
      next_mode_after_cooldown := next_mode }
    if next_mode = BotMode.LIMITED then
      { s1 with
        limited_until := some (expiry + 60 * cfg.risk_limits.limited_mode_duration_minutes)
        limited_exit_equity := some (currentEquity cfg s1 +
          cfg.risk_limits.reference_account_size_usdt * cfg.risk_limits.limited_mode_recovery_pct) }
    else s1

/-- `StateManager._trigger_daily_loss_cooldown`. -/
def triggerDailyLossCooldown (cfg : BotConfig) (now : Int) (s : StateManager) : StateManager :=
  if s.cooldown_enabled then
    enterCooldown cfg now cfg.risk_limits.cooldown_long_minutes BotMode.LIMITED
      { s with cooldown_long_count := s.cooldown_long_count + 1 }
  else s

/-- `StateManager._trigger_short_cooldown`. -/
def triggerShortCooldown (cfg : BotConfig) (now : Int) (s : StateManager) : StateManager :=
  if s.cooldown_enabled then
    enterCooldown cfg now cfg.risk_limits.cooldown_short_minutes BotMode.NORMAL
      { s with cooldown_short_count := s.cooldown_short_count + 1 }
  else s

/-- `StateManager._evaluate_timers`. -/
def evaluateTimers (now : Int) (s0 : StateManager) : StateManager :=
  let s1 :=
    match s0.cooldown_until with
    | some cu =>
        if s0.mode = BotMode.COOLDOWN ∧ cu ≤ now then
          { s0 with mode := s0.next_mode_after_cooldown, cooldown_until := none }
        else s0
    | none => s0
  match s1.limited_until with
  | some lu =>
      if s1.mode = BotMode.LIMITED ∧ lu ≤ now then
        { s1 with mode := BotMode.NORMAL, limited_until := none, limited_exit_equity := none }
      else s1
  | none => s1

/-- `StateManager._evaluate_limited_exit`.  The Python truthiness test
`if self._mode == LIMITED and self._limited_exit_equity:` skips the exit
check when the stored threshold is `None` or `0.0`. -/
def evaluateLimitedExit (cfg : BotConfig) (s : StateManager) : StateManager :=
  match s.limited_exit_equity with
  | some q =>
      if s.mode = BotMode.LIMITED ∧ q ≠ 0 ∧ q ≤ currentEquity cfg s then
        { s with mode := BotMode.NORMAL, limited_exit_equity := none, limited_until := none }
      else s
  | none => s

/-- `StateManager._evaluate_global_drawdown`. -/
def evaluateGlobalDrawdown (cfg : BotConfig) (s : StateManager) : StateManager :=
  if cfg.risk_limits.global_drawdown_pct ≤ s.equity_stats.max_drawdown_pct then
    { s with mode := BotMode.HALT }
  else s

/-- The statistics phase of `StateManager.on_trade_closed` (daily roll,
pnl accumulation, counters, drawdown metrics). -/
def onTradeClosedStats (cfg : BotConfig) (tr : TradeResult)
    (s0 : StateManager) : StateManager :=
  let s1 := maybeRollDailyStats tr.timestamp s0
  let pnl := tr.net_pnl
  let s2 := { s1 with session_stats :=
      { s1.session_stats with
        daily_pnl := s1.session_stats.daily_pnl + pnl
        daily_trades := s1.session_stats.daily_trades + 1
        consecutive_losses :=
          if tr.is_loss then s1.session_stats.consecutive_losses + 1 else 0 } }
  let s3 := { s2 with equity_stats :=
      { s2.equity_stats with cumulative_pnl := s2.equity_stats.cumulative_pnl + pnl } }
  updateDrawdownMetrics cfg s3

/-- The cooldown-trigger phase of `StateManager.on_trade_closed` (the
`if`/`elif` on daily loss and consecutive losses). -/
def onTradeClosedTriggers (cfg : BotConfig) (now : Int)
    (s4 : StateManager) : StateManager :=
  if s4.session_stats.daily_pnl ≤ -(maxDailyLossAbs cfg) then
    triggerDailyLossCooldown cfg now s4
  else if cfg.profile.max_consecutive_losses_for_cooldown ≤
      s4.session_stats.consecutive_losses then
    triggerShortCooldown cfg now s4
  else s4

/-- `StateManager.on_trade_closed`: statistics, cooldown triggers, then the
two unconditional re-evaluations, in the order of the method body. -/
def onTradeClosed (cfg : BotConfig) (now : Int) (tr : TradeResult)
    (s0 : StateManager) : StateManager :=
  evaluateLimitedExit cfg (evaluateGlobalDrawdown cfg
    (onTradeClosedTriggers cfg now (onTradeClosedStats cfg tr s0)))

/-- A sequence of `on_trade_closed` calls, each with its own clock reading. -/
def onTradeClosedSeq (cfg : BotConfig) :
    List (Int × TradeResult) → StateManager → StateManager
  | [], s => s
  | (now, tr) :: rest, s => onTradeClosedSeq cfg rest (onTradeClosed cfg now tr s)

/-- `StateManager.can_trade_now`; the updated state is returned alongside the
`(allowed, reason)` pair because `_evaluate_timers` mutates `self`. -/
def canTradeNow (now : Int) (s0 : StateManager) : StateManager × Bool × Option String :=
  let s := evaluateTimers now s0
  if s.mode = BotMode.HALT then (s, false, some "HALT")
  else if s.mode = BotMode.COOLDOWN then (s, false, some "COOLDOWN")
  else (s, true, none)

/-- `StateManager.current_mode`. -/
def currentMode (now : Int) (s0 : StateManager) : StateManager × BotMode :=
  let s := evaluateTimers now s0
  (s, s.mode)

/-- The state built by `StateManager.__init__` before any hydration. -/
def initStateManager (cfg : BotConfig) (now : Int) : StateManager :=
  { mode := BotMode.NORMAL
    session_stats :=
      { trading_day := utcDay now, daily_pnl := 0, daily_trades := 0, consecutive_losses := 0 }
    equity_stats :=
      { cumulative_pnl := 0
        peak_equity := cfg.risk_limits.reference_account_size_usdt
        max_drawdown_pct := 0 }
    cooldown_until := none
    next_mode_after_cooldown := BotMode.NORMAL
    limited_until := none
    limited_exit_equity := none
    internal_version := "0.0.1"
    cooldown_short_count := 0
    cooldown_long_count := 0
    cooldown_enabled := true }

/-- `BotMode.value`: the string value of the Python `str`-enum member. -/
def BotMode.value : BotMode → String
  | BotMode.NORMAL => "NORMAL"
  | BotMode.COOLDOWN => "COOLDOWN"
  | BotMode.LIMITED => "LIMITED"
  | BotMode.HALT => "HALT"

/-- `BotMode(v)`: enum lookup by value; the Python constructor raises
`ValueError` on an unknown string, embedded as `none`. -/
def botModeOfValue (v : String) : Option BotMode :=
  if v = "NORMAL" then some BotMode.NORMAL
  else if v = "COOLDOWN" then some BotMode.COOLDOWN
  else if v = "LIMITED" then some BotMode.LIMITED
  else if v = "HALT" then some BotMode.HALT
  else none

/-- The snapshot dict produced by `StateManager.export_state` (§6 of the
spec); `cooldown_until`/`limited_until` are ISO strings or `None` in Python,
embedded as optional timestamps, and the two `cooldown_counters` entries are
the two counter fields. -/
structure Snapshot where
  mode : String
  session_stats : SessionStats
  equity_stats : EquityStats
  cooldown_until : Option Int
  next_mode_after_cooldown : String
  limited_until : Option Int
  limited_exit_equity : Option ℚ
  internal_version : String
  cooldown_counter_short : Nat
  cooldown_counter_long : Nat
  deriving DecidableEq

/-- `StateManager.export_state`. -/
def exportState (s : StateManager) : Snapshot :=
  { mode := s.mode.value
    session_stats := s.session_stats
    equity_stats := s.equity_stats
    cooldown_until := s.cooldown_until
    next_mode_after_cooldown := s.next_mode_after_cooldown.value
    limited_until := s.limited_until
    limited_exit_equity := s.limited_exit_equity
    internal_version := s.internal_version
    cooldown_counter_short := s.cooldown_short_count
    cooldown_counter_long := s.cooldown_long_count }

/-- `StateManager._hydrate` applied to a full export-shaped payload (every
key of `export_state` present).  `none` models the `ValueError` raised by
`BotMode(...)` on an unknown mode string.  The truthiness guards of the
source are kept: a `None` timestamp is skipped, an empty version string is
skipped, and the counters dict exported by `export_state` is always
non-empty so it is always applied. -/
def hydrate (payload : Snapshot) (s0 : StateManager) : Option StateManager := do
  let m ← botModeOfValue payload.mode
  let s1 := { s0 with mode := m, session_stats := payload.session_stats,
                      equity_stats := payload.equity_stats }
  let s2 :=
    match payload.cooldown_until with
    | some cu => { s1 with cooldown_until := some cu }
    | none => s1
  let nm ← botModeOfValue payload.next_mode_after_cooldown
  let s3 := { s2 with next_mode_after_cooldown := nm }
  let s4 :=
    match payload.limited_until with
    | some lu => { s3 with limited_until := some lu }
    | none => s3
  let s5 := { s4 with limited_exit_equity := payload.limited_exit_equity }
  let s6 :=
    if payload.internal_version ≠ "" then
      { s5 with internal_version := payload.internal_version }
    else s5
  some { s6 with cooldown_short_count := payload.cooldown_counter_short,
                 cooldown_long_count := payload.cooldown_counter_long }

/-- `StateManager.__init__` with an `initial_state` payload: default
construction followed by `_hydrate`. -/
def stateManagerFromSnapshot (cfg : BotConfig) (now : Int) (payload : Snapshot) :
    Option StateManager :=
  hydrate payload (initStateManager cfg now)

/- ------------------------------------------------------------------
RiskManager (`src/risk/risk_manager.py`)
------------------------------------------------------------------ -/

/-- The slice of `SymbolInfo` (`data/symbol_info.py`) consumed by
`RiskManager`. -/
structure SymbolInfo where
  min_qty : ℚ
  qty_step : ℚ
  deriving DecidableEq

/-- `RiskResult`. -/
structure RiskResult where
  qty : ℚ
  entry_price : ℚ
  sl_price : ℚ
  tp_price : ℚ
  risk_amount : ℚ
  deriving DecidableEq

/-- The two `ValueError`s raised by `RiskManager.evaluate`. -/
inductive RiskError
  | invalidStopDistance
  | belowExchangeMinimum
  deriving DecidableEq

/-- Python 3 `round(q)` to the nearest integer, ties to even. -/
def pyRound (q : ℚ) : ℤ :=
  if q - (⌊q⌋ : ℚ) = 1 / 2 then (if ⌊q⌋ % 2 = 0 then ⌊q⌋ else ⌊q⌋ + 1)
  else ⌊q + 1 / 2⌋

/-- Python `int(q)`: truncation toward zero. -/
def intTrunc (q : ℚ) : ℤ := if 0 ≤ q then ⌊q⌋ else ⌈q⌉

/-- `RiskManager._apply_precision`.  (When `round(1/step)` is `0` the Python
code raises `ZeroDivisionError`; the theorems below only use instruments
whose step makes the precision positive, as both shipped instruments do.) -/
def applyPrecision (si : SymbolInfo) (qty : ℚ) : ℚ :=
  let precision : ℤ := pyRound (1 / si.qty_step)
  (intTrunc (qty * (precision : ℚ)) : ℚ) / (precision : ℚ)

/-- `RiskManager.evaluate`; the raised `ValueError`s become `Except.error`.
The function is pure: it reads only its arguments and the configuration. -/
def riskEvaluate (cfg : BotConfig) (si : SymbolInfo)
    (entry_price sl_price tp_price : ℚ) : Except RiskError RiskResult :=
  let reference := cfg.risk_limits.reference_account_size_usdt
  let risk_amount := reference * cfg.profile.risk_per_trade_pct
  let stop_distance := |entry_price - sl_price|
  if stop_distance ≤ 0 then Except.error RiskError.invalidStopDistance
  else
    let qty0 := risk_amount / stop_distance
    let qty := applyPrecision si qty0
    if qty < si.min_qty then Except.error RiskError.belowExchangeMinimum
    else Except.ok
      { qty := qty
        entry_price := entry_price
        sl_price := sl_price
        tp_price := tp_price
        risk_amount := risk_amount }

/- ------------------------------------------------------------------
OrderExecutor (`src/execution/order_executor.py`)
------------------------------------------------------------------ -/

/-- `ActiveTrade`.  `opened_at` is a Unix timestamp in seconds; the two
execution timestamps are in milliseconds as in the source. -/
structure ActiveTrade where
  side : String
  qty : ℚ
  entry_price : ℚ
  sl_price : ℚ
  tp_price : ℚ
  opened_at : Int
  entry_order_id : String
  time_stop_minutes : Int
  entry_exec_time_ms : Int
  last_exec_time_ms : Int
  deriving DecidableEq

/-- `ActiveTrade.is_time_stop_reached`. -/
def ActiveTrade.isTimeStopReached (t : ActiveTrade) (now : Int) : Bool :=
  if t.time_stop_minutes ≤ 0 then false
  else decide (t.opened_at + 60 * t.time_stop_minutes ≤ now)

/-- One row of a `get_executions` response, with the dict-access defaults of
the source already applied (`orderId`, `execPrice`, `execTime`, `side`). -/
structure ExecRow where
  orderId : String
  execPrice : ℚ
  execTime : Int
  side : String
  deriving DecidableEq

/-- One row of a `get_position` response, with the dict-access defaults of
the source already applied. -/
structure PosRow where
  size : ℚ
  side : String
  stopLoss : ℚ
  takeProfit : ℚ
  entryPrice : ℚ
  positionIdx : Nat
  deriving DecidableEq

/-- The `result.orderId` field of a `create_order` response. -/
structure OrderResp where
  orderId : String
  deriving DecidableEq

/-- A venue/transport failure: the Bybit client raises, and the exception
propagates out of the executor method. -/
inductive GatewayErr
  | transport
  deriving DecidableEq

/-- Oracle model of `BybitClient`: the responses the gateway would give to
the calls made during one executor operation.  `execPolls k` is the response
to the `k`-th `get_executions()` poll of `_fetch_fill`; `execsSince t` is the
response to `get_executions(start_time=t)`; `positionRows` is the
`result.list` of `get_position()`. -/
structure BybitClient where
  createOrderResp : Except GatewayErr OrderResp
  execPolls : Nat → List ExecRow
  positionRows : List PosRow
  execsSince : Int → List ExecRow

/-- The mutable `_active_trade` slot of `OrderExecutor`. -/
structure ExecutorState where
  activeTrade : Option ActiveTrade
  deriving DecidableEq

/-- The bounded retry loop of `OrderExecutor._fetch_fill`: `k` is the index
of the next poll, `remaining` the polls left (5 at the top call).  Python
returns the pair `(price, exec_time)` with both components set on success
and `(None, None)` on exhaustion, embedded as `Option (price × time)`. -/
def fetchFillLoop (client : BybitClient) (oid : String) :
    Nat → Nat → Option (ℚ × Int)
  | _, 0 => none
  | k, remaining + 1 =>
    match (client.execPolls k).find? (fun row => row.orderId == oid) with
    | some row => some (row.execPrice, row.execTime)
    | none => fetchFillLoop client oid (k + 1) remaining

/-- `OrderExecutor._fetch_fill` (5 bounded polls). -/
def fetchFill (client : BybitClient) (oid : String) : Option (ℚ × Int) :=
  fetchFillLoop client oid 0 5

/-- `OrderExecutor.close_trade`.  A gateway exception from `create_order`
propagates (`Except.error`), leaving the caller's state unchanged; otherwise
the updated `_active_trade` slot and the returned fill price are produced.
The truthiness guard `if exec_time and self._active_trade:` (a fill time of
`0` is falsy) only updates the watermark of the trade object that the very
next line drops from the slot. -/
def closeTrade (client : BybitClient) (price : Option ℚ) (s : ExecutorState) :
    Except GatewayErr (ExecutorState × Option ℚ) :=
  match s.activeTrade with
  | none => Except.ok (s, none)
  | some t =>
    match client.createOrderResp with
    | Except.error e => Except.error e
    | Except.ok resp =>
      match fetchFill client resp.orderId with
      | some (fp, et) =>
        let _dropped := if et ≠ 0 then { t with last_exec_time_ms := et } else t
        Except.ok ({ activeTrade := none }, some fp)
      | none => Except.ok ({ activeTrade := none }, none)

/-- The row scan of `OrderExecutor.refresh_active_trade`: the first position
row with non-zero size is turned into a recovered `ActiveTrade`. -/
def refreshScan (prior : Option ActiveTrade) (now nowMs : Int) :
    List PosRow → Option ActiveTrade
  | [] => none
  | row :: rest =>
    if row.size = 0 then refreshScan prior now nowMs rest
    else some
      { side := if row.side.toUpper = "BUY" then "LONG" else "SHORT"
        qty := row.size
        entry_price := row.entryPrice
        sl_price := row.stopLoss
        tp_price := row.takeProfit
        opened_at := now
        entry_order_id := toString row.positionIdx
        time_stop_minutes :=
          match prior with
          | some t => t.time_stop_minutes
          | none => 0
        entry_exec_time_ms := nowMs
        last_exec_time_ms := nowMs }

/-- `OrderExecutor.refresh_active_trade`; `now` is the wall clock in seconds
and `nowMs` in milliseconds.  Returns the updated slot together with the
method's return value (both are the recovered trade, or `none`). -/
def refreshActiveTrade (client : BybitClient) (now nowMs : Int)
    (s : ExecutorState) : ExecutorState × Option ActiveTrade :=
  match refreshScan s.activeTrade now nowMs client.positionRows with
  | some t => ({ activeTrade := some t }, some t)
  | none => ({ activeTrade := none }, none)

/-- The scan of `OrderExecutor._find_exit_fill` over the time-sorted
execution rows: skip rows at or before the watermark, return the first row
whose side closes the trade (advancing the watermark), keep scanning
otherwise. -/
def findExitScan (t : ActiveTrade) : List ExecRow → Option (ℚ × ActiveTrade)
  | [] => none
  | row :: rest =>
    if row.execTime ≤ t.last_exec_time_ms then findExitScan t rest
    else if t.side = "LONG" ∧ row.side.toUpper = "SELL" then
      some (row.execPrice, { t with last_exec_time_ms := row.execTime })
    else if t.side = "SHORT" ∧ row.side.toUpper = "BUY" then
      some (row.execPrice, { t with last_exec_time_ms := row.execTime })
    else findExitScan t rest

/-- `OrderExecutor._find_exit_fill`.  Python mutates
`trade.last_exec_time_ms` in place; the updated trade is returned alongside
the exit price. -/
def findExitFill (client : BybitClient) (t : ActiveTrade) :
    Option (ℚ × ActiveTrade) :=
  let executions := client.execsSince t.entry_exec_time_ms
  if executions = [] then none
  else
    let sorted_execs :=
      executions.mergeSort (fun a b => decide (a.execTime ≤ b.execTime))
    findExitScan t sorted_execs

/-- `OrderExecutor.poll_trade_close`.  Returns the updated slot, the updated
trade object (whose watermark may have been advanced in place), and the exit
price. -/
def pollTradeClose (client : BybitClient) (s : ExecutorState) (t : ActiveTrade) :
    ExecutorState × ActiveTrade × Option ℚ :=
  let open_size := ((client.positionRows.map fun row => row.size).sum)
  if 0 < open_size then (s, t, none)
  else
    match findExitFill client t with
    | some (price, t1) => ({ activeTrade := none }, t1, some price)
    | none => ({ activeTrade := none }, t, none)

/- ------------------------------------------------------------------
Preservation lemmas for the state-machine phases
------------------------------------------------------------------ -/

lemma maybeRollDailyStats_equity (ts : Int) (s : StateManager) :
    (maybeRollDailyStats ts s).equity_stats = s.equity_stats := by
  simp only [maybeRollDailyStats]
  split <;> rfl

lemma enterCooldown_session (cfg : BotConfig) (now minutes : Int) (nm : BotMode)
    (s : StateManager) :
    (enterCooldown cfg now minutes nm s).session_stats = s.session_stats := by
  simp only [enterCooldown]
  split_ifs <;> rfl

lemma enterCooldown_equity (cfg : BotConfig) (now minutes : Int) (nm : BotMode)
    (s : StateManager) :
    (enterCooldown cfg now minutes nm s).equity_stats = s.equity_stats := by
  simp only [enterCooldown]
  split_ifs <;> rfl

lemma triggerDailyLossCooldown_session (cfg : BotConfig) (now : Int) (s : StateManager) :
    (triggerDailyLossCooldown cfg now s).session_stats = s.session_stats := by
  simp only [triggerDailyLossCooldown]
  split_ifs <;> simp [enterCooldown_session]

lemma triggerDailyLossCooldown_equity (cfg : BotConfig) (now : Int) (s : StateManager) :
    (triggerDailyLossCooldown cfg now s).equity_stats = s.equity_stats := by
  simp only [triggerDailyLossCooldown]
  split_ifs <;> simp [enterCooldown_equity]

lemma triggerShortCooldown_session (cfg : BotConfig) (now : Int) (s : StateManager) :
    (triggerShortCooldown cfg now s).session_stats = s.session_stats := by
  simp only [triggerShortCooldown]
  split_ifs <;> simp [enterCooldown_session]

lemma triggerShortCooldown_equity (cfg : BotConfig) (now : Int) (s : StateManager) :
    (triggerShortCooldown cfg now s).equity_stats = s.equity_stats := by
  simp only [triggerShortCooldown]
  split_ifs <;> simp [enterCooldown_equity]

lemma onTradeClosedTriggers_session (cfg : BotConfig) (now : Int) (s : StateManager) :
    (onTradeClosedTriggers cfg now s).session_stats = s.session_stats := by
  simp only [onTradeClosedTriggers]
  split_ifs <;>
    simp [triggerDailyLossCooldown_session, triggerShortCooldown_session]

lemma onTradeClosedTriggers_equity (cfg : BotConfig) (now : Int) (s : StateManager) :
    (onTradeClosedTriggers cfg now s).equity_stats = s.equity_stats := by
  simp only [onTradeClosedTriggers]
  split_ifs <;>
    simp [triggerDailyLossCooldown_equity, triggerShortCooldown_equity]

lemma evaluateGlobalDrawdown_session (cfg : BotConfig) (s : StateManager) :
    (evaluateGlobalDrawdown cfg s).session_stats = s.session_stats := by
  simp only [evaluateGlobalDrawdown]
  split_ifs <;> rfl

lemma evaluateGlobalDrawdown_equity (cfg : BotConfig) (s : StateManager) :
    (evaluateGlobalDrawdown cfg s).equity_stats = s.equity_stats := by
  simp only [evaluateGlobalDrawdown]
  split_ifs <;> rfl

lemma evaluateLimitedExit_session (cfg : BotConfig) (s : StateManager) :
    (evaluateLimitedExit cfg s).session_stats = s.session_stats := by
  simp only [evaluateLimitedExit]
  split <;> first | rfl | (split_ifs <;> rfl)

lemma evaluateLimitedExit_equity (cfg : BotConfig) (s : StateManager) :
    (evaluateLimitedExit cfg s).equity_stats = s.equity_stats := by
  simp only [evaluateLimitedExit]
  split <;> first | rfl | (split_ifs <;> rfl)

lemma evaluateLimitedExit_of_ne_limited (cfg : BotConfig) (s : StateManager)
    (h : s.mode ≠ BotMode.LIMITED) : evaluateLimitedExit cfg s = s := by
  simp only [evaluateLimitedExit]
  split
  · split_ifs with hc
    · exact absurd hc.1 h
    · rfl
  · rfl

lemma evaluateGlobalDrawdown_of_lt (cfg : BotConfig) (s : StateManager)
    (h : s.equity_stats.max_drawdown_pct < cfg.risk_limits.global_drawdown_pct) :
    evaluateGlobalDrawdown cfg s = s := by
  simp only [evaluateGlobalDrawdown]
  rw [if_neg (not_le.mpr h)]

lemma evaluateGlobalDrawdown_mode_of_le (cfg : BotConfig) (s : StateManager)
    (h : cfg.risk_limits.global_drawdown_pct ≤ s.equity_stats.max_drawdown_pct) :
    (evaluateGlobalDrawdown cfg s).mode = BotMode.HALT := by
  simp only [evaluateGlobalDrawdown]
  rw [if_pos h]

/-- A representative production-shaped configuration, used to instantiate
the universally quantified theorems on concrete inputs. -/
def cfgEx : BotConfig :=
  { profile :=
      { risk_per_trade_pct := 1 / 100
        max_daily_loss_pct := 5 / 100
        max_consecutive_losses_for_cooldown := 5 }
    risk_limits :=
      { reference_account_size_usdt := 1000
        cooldown_short_minutes := 30
        cooldown_long_minutes := 120
        limited_mode_duration_minutes := 240
        limited_mode_recovery_pct := 2 / 100
        global_drawdown_pct := 15 / 100 } }

/-- Like `cfgEx` but with a 1% global drawdown limit, so that a single
sizeable loss breaches it. -/
def cfgTight : BotConfig :=
  { cfgEx with risk_limits := { cfgEx.risk_limits with global_drawdown_pct := 1 / 100 } }

/-- Claim C9: after the lazy timer evaluation that `can_trade_now` performs
first, it returns `false` exactly when the resulting mode is COOLDOWN or
HALT (reporting that mode as the blocking reason) and `true` with no reason
exactly when the resulting mode is NORMAL or LIMITED. -/
theorem canTradeNow_blocks_exactly_protective_modes (now : Int) (s : StateManager) :
    ((canTradeNow now s).2.1 = false ↔
      ((evaluateTimers now s).mode = BotMode.COOLDOWN ∨
        (evaluateTimers now s).mode = BotMode.HALT)) ∧
    ((canTradeNow now s).2.1 = true ↔
      ((evaluateTimers now s).mode = BotMode.NORMAL ∨
        (evaluateTimers now s).mode = BotMode.LIMITED)) ∧
    ((evaluateTimers now s).mode = BotMode.COOLDOWN →
      (canTradeNow now s).2.2 = some "COOLDOWN") ∧
    ((evaluateTimers now s).mode = BotMode.HALT →
      (canTradeNow now s).2.2 = some "HALT") ∧
    ((canTradeNow now s).2.1 = true → (canTradeNow now s).2.2 = none) := by
  cases hm : (evaluateTimers now s).mode <;> simp [canTradeNow, hm]

/-- Witness for C9: a fresh NORMAL state machine is allowed to trade with
no blocking reason. -/
theorem canTradeNow_blocks_exactly_protective_modes_witness :
    (canTradeNow 0 (initStateManager cfgEx 0)).2.1 = true ∧
    (canTradeNow 0 (initStateManager cfgEx 0)).2.2 = none := by
  have h := canTradeNow_blocks_exactly_protective_modes 0 (initStateManager cfgEx 0)
  have hb : (canTradeNow 0 (initStateManager cfgEx 0)).2.1 = true :=
    h.2.1.mpr (Or.inl (by decide))
  exact ⟨hb, h.2.2.2.2 hb⟩

/-- Claim C4: whenever a call to `on_trade_closed` ends with
`max_drawdown_pct ≥ global_drawdown_pct`, the mode at the end of that call
is HALT (even if a cooldown trigger fired in the same call), and the lazy
timer evaluation never moves a machine out of HALT. -/
theorem global_drawdown_forces_halt_and_halt_is_terminal :
    (∀ (cfg : BotConfig) (now : Int) (tr : TradeResult) (s : StateManager),
      cfg.risk_limits.global_drawdown_pct ≤
          (onTradeClosed cfg now tr s).equity_stats.max_drawdown_pct →
        (onTradeClosed cfg now tr s).mode = BotMode.HALT) ∧
    (∀ (now : Int) (s : StateManager),
      s.mode = BotMode.HALT → (evaluateTimers now s).mode = BotMode.HALT) := by
  constructor
  · intro cfg now tr s h
    unfold onTradeClosed at *
    set s5 := onTradeClosedTriggers cfg now (onTradeClosedStats cfg tr s) with hs5
    have hdd : (onTradeClosed cfg now tr s).equity_stats.max_drawdown_pct =
        s5.equity_stats.max_drawdown_pct := by
      unfold onTradeClosed
      rw [evaluateLimitedExit_equity, evaluateGlobalDrawdown_equity]
    rw [evaluateLimitedExit_equity, evaluateGlobalDrawdown_equity] at h
    have hhalt : (evaluateGlobalDrawdown cfg s5).mode = BotMode.HALT :=
      evaluateGlobalDrawdown_mode_of_le cfg s5 h
    rw [evaluateLimitedExit_of_ne_limited cfg _ (by rw [hhalt]; intro hc; cases hc)]
    exact hhalt
  · intro now s h
    unfold evaluateTimers
    cases hcu : s.cooldown_until <;> cases hlu : s.limited_until <;>
      simp [h, hcu, hlu]

/-- Witness for C4: with a 1% global drawdown limit, a 100-unit loss on a
1000-unit reference balance breaches the limit and the machine ends the call
in HALT; the timer evaluation keeps it in HALT. -/
theorem global_drawdown_forces_halt_witness :
    (cfgTight.risk_limits.global_drawdown_pct ≤
      (onTradeClosed cfgTight 0 ⟨-100, 0, 0⟩
        (initStateManager cfgTight 0)).equity_stats.max_drawdown_pct) ∧
    (onTradeClosed cfgTight 0 ⟨-100, 0, 0⟩
      (initStateManager cfgTight 0)).mode = BotMode.HALT ∧
    (evaluateTimers 99999999
      (onTradeClosed cfgTight 0 ⟨-100, 0, 0⟩
        (initStateManager cfgTight 0))).mode = BotMode.HALT := by
  have h1 := global_drawdown_forces_halt_and_halt_is_terminal.1 cfgTight 0
    ⟨-100, 0, 0⟩ (initStateManager cfgTight 0) (by with_unfolding_all decide)
  exact ⟨by with_unfolding_all decide, h1,
    global_drawdown_forces_halt_and_halt_is_terminal.2 99999999 _ h1⟩

lemma updateDrawdownMetrics_mono (cfg : BotConfig) (s : StateManager) :
    s.equity_stats.peak_equity ≤ (updateDrawdownMetrics cfg s).equity_stats.peak_equity ∧
    s.equity_stats.max_drawdown_pct ≤
      (updateDrawdownMetrics cfg s).equity_stats.max_drawdown_pct := by
  simp only [updateDrawdownMetrics]
  split_ifs <;> simp [le_max_left]

lemma onTradeClosed_equity_step (cfg : BotConfig) (now : Int) (tr : TradeResult)
    (s : StateManager) :
    s.equity_stats.peak_equity ≤ (onTradeClosed cfg now tr s).equity_stats.peak_equity ∧
    s.equity_stats.max_drawdown_pct ≤
      (onTradeClosed cfg now tr s).equity_stats.max_drawdown_pct := by
  unfold onTradeClosed
  rw [evaluateLimitedExit_equity, evaluateGlobalDrawdown_equity, onTradeClosedTriggers_equity]
  unfold onTradeClosedStats
  have h := updateDrawdownMetrics_mono cfg
    { maybeRollDailyStats tr.timestamp s with
      session_stats :=
        { (maybeRollDailyStats tr.timestamp s).session_stats with
          daily_pnl := (maybeRollDailyStats tr.timestamp s).session_stats.daily_pnl + tr.net_pnl
          daily_trades := (maybeRollDailyStats tr.timestamp s).session_stats.daily_trades + 1
          consecutive_losses :=
            if tr.is_loss then
              (maybeRollDailyStats tr.timestamp s).session_stats.consecutive_losses + 1
            else 0 }
      equity_stats :=
        { (maybeRollDailyStats tr.timestamp s).equity_stats with
          cumulative_pnl :=
            (maybeRollDailyStats tr.timestamp s).equity_stats.cumulative_pnl + tr.net_pnl } }
  simpa [maybeRollDailyStats_equity] using h

/-- Claim C3: across any sequence of `on_trade_closed` calls, from any
starting state, `peak_equity` and `max_drawdown_pct` are non-decreasing;
moreover each call updates `max_drawdown_pct` to the maximum of its previous
value and the newly computed drawdown `(peak_equity - current_equity) /
peak_equity` (whenever the updated peak is positive; a non-positive peak
leaves the maximum drawdown untouched). -/
theorem equity_stats_monotone (cfg : BotConfig) :
    (∀ (l : List (Int × TradeResult)) (s : StateManager),
      s.equity_stats.peak_equity ≤ (onTradeClosedSeq cfg l s).equity_stats.peak_equity ∧
      s.equity_stats.max_drawdown_pct ≤
        (onTradeClosedSeq cfg l s).equity_stats.max_drawdown_pct) ∧
    (∀ (now : Int) (tr : TradeResult) (s : StateManager),
      (onTradeClosed cfg now tr s).equity_stats.peak_equity =
        max s.equity_stats.peak_equity
          (cfg.risk_limits.reference_account_size_usdt +
            s.equity_stats.cumulative_pnl + tr.net_pnl) ∧
      (0 < (onTradeClosed cfg now tr s).equity_stats.peak_equity →
        (onTradeClosed cfg now tr s).equity_stats.max_drawdown_pct =
          max s.equity_stats.max_drawdown_pct
            (((onTradeClosed cfg now tr s).equity_stats.peak_equity -
                (cfg.risk_limits.reference_account_size_usdt +
                  s.equity_stats.cumulative_pnl + tr.net_pnl)) /
              (onTradeClosed cfg now tr s).equity_stats.peak_equity)) ∧
      (¬ 0 < (onTradeClosed cfg now tr s).equity_stats.peak_equity →
        (onTradeClosed cfg now tr s).equity_stats.max_drawdown_pct =
          s.equity_stats.max_drawdown_pct)) := by
  constructor
  · intro l
    induction l with
    | nil => intro s; simp [onTradeClosedSeq]
    | cons p rest ih =>
      intro s
      obtain ⟨now, tr⟩ := p
      have h1 := onTradeClosed_equity_step cfg now tr s
      have h2 := ih (onTradeClosed cfg now tr s)
      exact ⟨le_trans h1.1 h2.1, le_trans h1.2 h2.2⟩
  · intro now tr s
    unfold onTradeClosed
    rw [show ∀ s', (evaluateLimitedExit cfg (evaluateGlobalDrawdown cfg
        (onTradeClosedTriggers cfg now s'))).equity_stats = s'.equity_stats from fun s' => by
      rw [evaluateLimitedExit_equity, evaluateGlobalDrawdown_equity,
        onTradeClosedTriggers_equity]]
    unfold onTradeClosedStats
    simp only [updateDrawdownMetrics, maybeRollDailyStats]
    split_ifs <;> simp_all [add_assoc]

/-- Witness for claim C3's conditional parts on a concrete input. -/
theorem equity_stats_monotone_witness :
    (initStateManager cfgEx 0).equity_stats.peak_equity ≤
      (onTradeClosedSeq cfgEx [(0, ⟨-30, 0, 0⟩), (3600, ⟨10, 3600, 1⟩)]
        (initStateManager cfgEx 0)).equity_stats.peak_equity ∧
    (0 < (onTradeClosed cfgEx 0 ⟨-30, 0, 0⟩
        (initStateManager cfgEx 0)).equity_stats.peak_equity ∧
      (onTradeClosed cfgEx 0 ⟨-30, 0, 0⟩
          (initStateManager cfgEx 0)).equity_stats.max_drawdown_pct =
        max (initStateManager cfgEx 0).equity_stats.max_drawdown_pct
          (((onTradeClosed cfgEx 0 ⟨-30, 0, 0⟩
              (initStateManager cfgEx 0)).equity_stats.peak_equity -
            (cfgEx.risk_limits.reference_account_size_usdt +
              (initStateManager cfgEx 0).equity_stats.cumulative_pnl +
              (⟨-30, 0, 0⟩ : TradeResult).net_pnl)) /
            (onTradeClosed cfgEx 0 ⟨-30, 0, 0⟩
              (initStateManager cfgEx 0)).equity_stats.peak_equity)) := by
  refine ⟨((equity_stats_monotone cfgEx).1 _ _).1, ?_, ?_⟩
  · with_unfolding_all decide
  · exact ((equity_stats_monotone cfgEx).2 0 ⟨-30, 0, 0⟩
      (initStateManager cfgEx 0)).2.1 (by with_unfolding_all decide)

lemma onTradeClosedStats_fields (cfg : BotConfig) (tr : TradeResult) (s : StateManager) :
    (onTradeClosedStats cfg tr s).mode = s.mode ∧
    (onTradeClosedStats cfg tr s).cooldown_until = s.cooldown_until ∧
    (onTradeClosedStats cfg tr s).next_mode_after_cooldown = s.next_mode_after_cooldown ∧
    (onTradeClosedStats cfg tr s).limited_until = s.limited_until ∧
    (onTradeClosedStats cfg tr s).limited_exit_equity = s.limited_exit_equity ∧
    (onTradeClosedStats cfg tr s).cooldown_enabled = s.cooldown_enabled := by
  simp only [onTradeClosedStats, updateDrawdownMetrics, maybeRollDailyStats]
  split_ifs <;> simp

lemma onTradeClosed_session (cfg : BotConfig) (now : Int) (tr : TradeResult)
    (s : StateManager) :
    (onTradeClosed cfg now tr s).session_stats =
      (onTradeClosedStats cfg tr s).session_stats := by
  unfold onTradeClosed
  rw [evaluateLimitedExit_session, evaluateGlobalDrawdown_session,
    onTradeClosedTriggers_session]

lemma onTradeClosed_equityEq (cfg : BotConfig) (now : Int) (tr : TradeResult)
    (s : StateManager) :
    (onTradeClosed cfg now tr s).equity_stats =
      (onTradeClosedStats cfg tr s).equity_stats := by
  unfold onTradeClosed
  rw [evaluateLimitedExit_equity, evaluateGlobalDrawdown_equity,
    onTradeClosedTriggers_equity]

lemma enterCooldown_limited (cfg : BotConfig) (now minutes : Int) (s : StateManager)
    (h : 0 < minutes) :
    enterCooldown cfg now minutes BotMode.LIMITED s =
      { s with
        mode := BotMode.COOLDOWN
        cooldown_until := some (now + 60 * minutes)
        next_mode_after_cooldown := BotMode.LIMITED
        limited_until := some (now + 60 * minutes +
          60 * cfg.risk_limits.limited_mode_duration_minutes)
        limited_exit_equity := some (cfg.risk_limits.reference_account_size_usdt +
          s.equity_stats.cumulative_pnl +
          cfg.risk_limits.reference_account_size_usdt *
            cfg.risk_limits.limited_mode_recovery_pct) } := by
  simp only [enterCooldown]
  rw [if_neg (not_le.mpr h)]
  simp [currentEquity, add_assoc]

lemma enterCooldown_normal (cfg : BotConfig) (now minutes : Int) (s : StateManager)
    (h : 0 < minutes) :
    enterCooldown cfg now minutes BotMode.NORMAL s =
      { s with
        mode := BotMode.COOLDOWN
        cooldown_until := some (now + 60 * minutes)
        next_mode_after_cooldown := BotMode.NORMAL } := by
  simp only [enterCooldown]
  rw [if_neg (not_le.mpr h)]
  simp

/-- Counterexample to claim C2 as stated: with a tight global drawdown limit
a single large loss both breaches the daily-loss threshold and the global
drawdown limit, and the unconditional drawdown check overrides the cooldown,
so the call ends in HALT, not COOLDOWN. -/
theorem daily_breach_overridden_by_halt :
    (onTradeClosed cfgTight 0 ⟨-100, 0, 0⟩
        (initStateManager cfgTight 0)).session_stats.daily_pnl ≤
      -(cfgTight.risk_limits.reference_account_size_usdt *
        cfgTight.profile.max_daily_loss_pct) ∧
    (onTradeClosed cfgTight 0 ⟨-100, 0, 0⟩
        (initStateManager cfgTight 0)).mode ≠ BotMode.COOLDOWN := by
  with_unfolding_all decide

/-- Claim C2 (amended): provided cooldown triggers are enabled, the relevant
cooldown duration is positive, and the call's final `max_drawdown_pct` stays
below `global_drawdown_pct` (so the unconditional HALT override does not
fire): a call of `on_trade_closed` ending with `daily_pnl ≤
-(reference_balance * max_daily_loss_pct)` ends in COOLDOWN with `next_mode
= LIMITED` and sets a LimitedWindow whose exit-equity threshold is
`current_equity_at_trigger + reference_balance * limited_mode_recovery_pct`;
a call with no daily-loss breach and `consecutive_losses ≥
max_consecutive_losses_for_cooldown` ends in COOLDOWN with `next_mode =
NORMAL` and leaves the LimitedWindow fields unchanged. -/
theorem onTradeClosed_cooldown_triggers_amended (cfg : BotConfig) (now : Int)
    (tr : TradeResult) (s : StateManager)
    (hen : s.cooldown_enabled = true)
    (hdd : (onTradeClosed cfg now tr s).equity_stats.max_drawdown_pct <
      cfg.risk_limits.global_drawdown_pct) :
    (0 < cfg.risk_limits.cooldown_long_minutes →
      (onTradeClosed cfg now tr s).session_stats.daily_pnl ≤ -(maxDailyLossAbs cfg) →
      (onTradeClosed cfg now tr s).mode = BotMode.COOLDOWN ∧
      (onTradeClosed cfg now tr s).next_mode_after_cooldown = BotMode.LIMITED ∧
      (onTradeClosed cfg now tr s).cooldown_until =
        some (now + 60 * cfg.risk_limits.cooldown_long_minutes) ∧
      (onTradeClosed cfg now tr s).limited_until =
        some (now + 60 * cfg.risk_limits.cooldown_long_minutes +
          60 * cfg.risk_limits.limited_mode_duration_minutes) ∧
      (onTradeClosed cfg now tr s).limited_exit_equity =
        some (cfg.risk_limits.reference_account_size_usdt +
          (onTradeClosed cfg now tr s).equity_stats.cumulative_pnl +
          cfg.risk_limits.reference_account_size_usdt *
            cfg.risk_limits.limited_mode_recovery_pct)) ∧
    (0 < cfg.risk_limits.cooldown_short_minutes →
      ¬((onTradeClosed cfg now tr s).session_stats.daily_pnl ≤ -(maxDailyLossAbs cfg)) →
      cfg.profile.max_consecutive_losses_for_cooldown ≤
        (onTradeClosed cfg now tr s).session_stats.consecutive_losses →
      (onTradeClosed cfg now tr s).mode = BotMode.COOLDOWN ∧
      (onTradeClosed cfg now tr s).next_mode_after_cooldown = BotMode.NORMAL ∧
      (onTradeClosed cfg now tr s).cooldown_until =
        some (now + 60 * cfg.risk_limits.cooldown_short_minutes) ∧
      (onTradeClosed cfg now tr s).limited_until = s.limited_until ∧
      (onTradeClosed cfg now tr s).limited_exit_equity = s.limited_exit_equity) := by
  have hfields := onTradeClosedStats_fields cfg tr s
  have hsession := onTradeClosed_session cfg now tr s
  have hequity := onTradeClosed_equityEq cfg now tr s
  have hen4 : (onTradeClosedStats cfg tr s).cooldown_enabled = true := by
    rw [hfields.2.2.2.2.2]; exact hen
  have hdd4 : (onTradeClosedStats cfg tr s).equity_stats.max_drawdown_pct <
      cfg.risk_limits.global_drawdown_pct := by
    rw [← hequity]; exact hdd
  constructor
  · intro hmin hdaily
    rw [hsession] at hdaily
    have hcore : onTradeClosedTriggers cfg now (onTradeClosedStats cfg tr s) =
        enterCooldown cfg now cfg.risk_limits.cooldown_long_minutes BotMode.LIMITED
          { onTradeClosedStats cfg tr s with
            cooldown_long_count := (onTradeClosedStats cfg tr s).cooldown_long_count + 1 } := by
      unfold onTradeClosedTriggers triggerDailyLossCooldown
      rw [if_pos hdaily, if_pos hen4]
    rw [enterCooldown_limited cfg now _ _ hmin] at hcore
    have hEGD : evaluateGlobalDrawdown cfg
        (onTradeClosedTriggers cfg now (onTradeClosedStats cfg tr s)) =
        onTradeClosedTriggers cfg now (onTradeClosedStats cfg tr s) := by
      apply evaluateGlobalDrawdown_of_lt
      rw [onTradeClosedTriggers_equity]
      exact hdd4
    have hpost : onTradeClosed cfg now tr s =
        onTradeClosedTriggers cfg now (onTradeClosedStats cfg tr s) := by
      unfold onTradeClosed
      rw [hEGD, evaluateLimitedExit_of_ne_limited _ _ (by rw [hcore]; intro hc; cases hc)]
    rw [hequity, hpost, hcore]
    exact ⟨rfl, rfl, rfl, rfl, rfl⟩
  · intro hmin hdaily hcons
    rw [hsession] at hdaily hcons
    have hcore : onTradeClosedTriggers cfg now (onTradeClosedStats cfg tr s) =
        enterCooldown cfg now cfg.risk_limits.cooldown_short_minutes BotMode.NORMAL
          { onTradeClosedStats cfg tr s with
            cooldown_short_count := (onTradeClosedStats cfg tr s).cooldown_short_count + 1 } := by
      unfold onTradeClosedTriggers triggerShortCooldown
      rw [if_neg hdaily, if_pos hcons, if_pos hen4]
    rw [enterCooldown_normal cfg now _ _ hmin] at hcore
    have hEGD : evaluateGlobalDrawdown cfg
        (onTradeClosedTriggers cfg now (onTradeClosedStats cfg tr s)) =
        onTradeClosedTriggers cfg now (onTradeClosedStats cfg tr s) := by
      apply evaluateGlobalDrawdown_of_lt
      rw [onTradeClosedTriggers_equity]
      exact hdd4
    have hpost : onTradeClosed cfg now tr s =
        onTradeClosedTriggers cfg now (onTradeClosedStats cfg tr s) := by
      unfold onTradeClosed
      rw [hEGD, evaluateLimitedExit_of_ne_limited _ _ (by rw [hcore]; intro hc; cases hc)]
    rw [hpost, hcore]
    exact ⟨rfl, rfl, rfl, hfields.2.2.2.1, hfields.2.2.2.2.1⟩

/-- Witness for the amended C2: a 60-unit loss on a 1000-unit reference
balance breaches the 5% daily-loss limit but not the 15% global drawdown
limit, and the call ends in COOLDOWN→LIMITED with exit-equity threshold
940 + 20 = 960. -/
theorem onTradeClosed_cooldown_triggers_amended_witness :
    (onTradeClosed cfgEx 0 ⟨-60, 0, 0⟩
        (initStateManager cfgEx 0)).equity_stats.max_drawdown_pct <
      cfgEx.risk_limits.global_drawdown_pct ∧
    (onTradeClosed cfgEx 0 ⟨-60, 0, 0⟩
        (initStateManager cfgEx 0)).session_stats.daily_pnl ≤ -(maxDailyLossAbs cfgEx) ∧
    (onTradeClosed cfgEx 0 ⟨-60, 0, 0⟩ (initStateManager cfgEx 0)).mode = BotMode.COOLDOWN ∧
    (onTradeClosed cfgEx 0 ⟨-60, 0, 0⟩
        (initStateManager cfgEx 0)).next_mode_after_cooldown = BotMode.LIMITED ∧
    (onTradeClosed cfgEx 0 ⟨-60, 0, 0⟩ (initStateManager cfgEx 0)).cooldown_until =
      some 7200 ∧
    (onTradeClosed cfgEx 0 ⟨-60, 0, 0⟩ (initStateManager cfgEx 0)).limited_until =
      some 21600 ∧
    (onTradeClosed cfgEx 0 ⟨-60, 0, 0⟩ (initStateManager cfgEx 0)).limited_exit_equity =
      some 960 := by
  have h := (onTradeClosed_cooldown_triggers_amended cfgEx 0 ⟨-60, 0, 0⟩
      (initStateManager cfgEx 0) rfl (by with_unfolding_all decide)).1
    (by decide) (by with_unfolding_all decide)
  refine ⟨by with_unfolding_all decide, by with_unfolding_all decide,
    h.1, h.2.1, ?_, ?_, ?_⟩
  · rw [h.2.2.1]; rfl
  · rw [h.2.2.2.1]; rfl
  · rw [h.2.2.2.2]
    with_unfolding_all decide

lemma botModeOfValue_value (m : BotMode) : botModeOfValue m.value = some m := by
  cases m <;> rfl

/-- Claim C5: exporting the state-machine snapshot and constructing a new
machine from it reproduces the original state exactly (for any reachable
state: `cooldown_enabled` is `true` from construction and never written, and
`internal_version` is never the empty string), hence identical observable
behavior — modes, `can_trade_now` results and transitions — on every
subsequent input sequence. -/
theorem export_then_import_roundtrip (cfg : BotConfig) (now : Int) (s : StateManager)
    (hen : s.cooldown_enabled = true) (hver : s.internal_version ≠ "") :
    ∃ s', stateManagerFromSnapshot cfg now (exportState s) = some s' ∧
      s' = s ∧
      (∀ (l : List (Int × TradeResult)), onTradeClosedSeq cfg l s' = onTradeClosedSeq cfg l s) ∧
      (∀ n' : Int, canTradeNow n' s' = canTradeNow n' s) ∧
      (∀ n' : Int, currentMode n' s' = currentMode n' s) := by
  refine ⟨s, ?_, rfl, fun _ => rfl, fun _ => rfl, fun _ => rfl⟩
  obtain ⟨m, ss, es, cu, nm, lu, lee, iv, csc, clc, ce⟩ := s
  simp only at hen hver
  cases cu <;> cases lu <;>
    simp [stateManagerFromSnapshot, hydrate, exportState, initStateManager,
      botModeOfValue_value, hen, hver]

/-- A non-trivial concrete state (in COOLDOWN with a pending LIMITED window)
used to instantiate the round-trip law. -/
def sCooldownEx : StateManager :=
  { mode := BotMode.COOLDOWN
    session_stats := ⟨19000, -60, 3, 2⟩
    equity_stats := ⟨-60, 1000, 6 / 100⟩
    cooldown_until := some 7200
    next_mode_after_cooldown := BotMode.LIMITED
    limited_until := some 21600
    limited_exit_equity := some 960
    internal_version := "0.0.3"
    cooldown_short_count := 1
    cooldown_long_count := 1
    cooldown_enabled := true }

/-- Witness for C5: round-tripping a non-trivial concrete state (in COOLDOWN
with a pending LIMITED window) reproduces it exactly. -/
theorem export_then_import_roundtrip_witness :
    stateManagerFromSnapshot cfgEx 12345 (exportState sCooldownEx) = some sCooldownEx := by
  obtain ⟨s', h1, h2, -, -, -⟩ := export_then_import_roundtrip cfgEx 12345 sCooldownEx rfl
    (by decide)
  rw [h1, h2]

/- ------------------------------------------------------------------
RiskManager theorems (claims C7 and C8)
------------------------------------------------------------------ -/

lemma pyRound_intCast (n : ℤ) : pyRound (n : ℚ) = n := by
  unfold pyRound
  rw [Int.floor_intCast]
  rw [if_neg (by rw [sub_self]; norm_num)]
  rw [Int.floor_int_add]
  norm_num

lemma intTrunc_of_nonneg (q : ℚ) (h : 0 ≤ q) : intTrunc q = ⌊q⌋ := if_pos h

lemma applyPrecision_eq_floor (si : SymbolInfo) (n : ℤ) (hstep : si.qty_step = 1 / (n : ℚ))
    (q : ℚ) (hq : 0 ≤ q) (hn : 0 ≤ n) :
    applyPrecision si q = (⌊q / si.qty_step⌋ : ℚ) * si.qty_step := by
  simp only [applyPrecision, hstep, one_div_one_div, pyRound_intCast]
  rw [intTrunc_of_nonneg _ (mul_nonneg hq (by exact_mod_cast hn)),
    one_div, div_inv_eq_mul, div_eq_mul_inv]

/-- The BTCUSDT instrument metadata from `data/symbol_info.py`. -/
def instBTC : SymbolInfo := { min_qty := 1 / 1000, qty_step := 1 / 1000 }

/-- Claim C7: whenever `RiskManager.evaluate` succeeds, the returned
`risk_amount` is `reference_balance * risk_per_trade_pct` and the returned
quantity is `risk_amount / |entry - sl|` floored to the instrument's
quantity step (never rounded up), so that `qty * stop_distance` never
exceeds `risk_amount`; and on the spec's scenario (reference 1000, 1% risk,
entry 100, stop 99, BTCUSDT step 0.001) it returns `risk_amount = 10` and
`qty = 10`.  The `qty_step = 1/n` hypothesis states that the instrument's
step is the reciprocal of a positive integer, as both shipped instruments'
steps (0.001 and 0.1) are. -/
theorem riskEvaluate_floors_qty_to_step :
    (∀ (cfg : BotConfig) (si : SymbolInfo) (entry sl tp : ℚ) (n : ℤ),
      si.qty_step = 1 / (n : ℚ) → 1 ≤ n →
      0 ≤ cfg.risk_limits.reference_account_size_usdt →
      0 ≤ cfg.profile.risk_per_trade_pct →
      ∀ r, riskEvaluate cfg si entry sl tp = Except.ok r →
        r.risk_amount = cfg.risk_limits.reference_account_size_usdt *
          cfg.profile.risk_per_trade_pct ∧
        r.qty = (⌊(r.risk_amount / |entry - sl|) / si.qty_step⌋ : ℚ) * si.qty_step ∧
        r.qty ≤ r.risk_amount / |entry - sl| ∧
        r.qty * |entry - sl| ≤ r.risk_amount) ∧
    riskEvaluate cfgEx instBTC 100 99 102 =
      Except.ok { qty := 10, entry_price := 100, sl_price := 99, tp_price := 102,
                  risk_amount := 10 } := by
  constructor
  · intro cfg si entry sl tp n hstep hn href hpct r hok
    simp only [riskEvaluate] at hok
    split_ifs at hok with h1 h2
    have hd : 0 < |entry - sl| := lt_of_not_le h1
    have hrisk : 0 ≤ cfg.risk_limits.reference_account_size_usdt *
        cfg.profile.risk_per_trade_pct := mul_nonneg href hpct
    have hq0 : 0 ≤ cfg.risk_limits.reference_account_size_usdt *
        cfg.profile.risk_per_trade_pct / |entry - sl| := div_nonneg hrisk hd.le
    have happ := applyPrecision_eq_floor si n hstep _ hq0 (le_trans zero_le_one hn)
    have hnq : (0 : ℚ) < (n : ℚ) := by exact_mod_cast lt_of_lt_of_le zero_lt_one hn
    have hstep_pos : 0 < si.qty_step := by
      rw [hstep]
      exact one_div_pos.mpr hnq
    have hqle : applyPrecision si (cfg.risk_limits.reference_account_size_usdt *
        cfg.profile.risk_per_trade_pct / |entry - sl|) ≤
        cfg.risk_limits.reference_account_size_usdt *
          cfg.profile.risk_per_trade_pct / |entry - sl| := by
      rw [happ]
      calc (⌊cfg.risk_limits.reference_account_size_usdt *
              cfg.profile.risk_per_trade_pct / |entry - sl| / si.qty_step⌋ : ℚ) * si.qty_step
          ≤ (cfg.risk_limits.reference_account_size_usdt *
              cfg.profile.risk_per_trade_pct / |entry - sl| / si.qty_step) * si.qty_step :=
            mul_le_mul_of_nonneg_right (Int.floor_le _) hstep_pos.le
        _ = cfg.risk_limits.reference_account_size_usdt *
              cfg.profile.risk_per_trade_pct / |entry - sl| :=
            div_mul_cancel₀ _ (ne_of_gt hstep_pos)
    injection hok with hxr
    subst hxr
    refine ⟨rfl, by simpa using happ, by simpa using hqle, ?_⟩
    show applyPrecision si (cfg.risk_limits.reference_account_size_usdt *
        cfg.profile.risk_per_trade_pct / |entry - sl|) * |entry - sl| ≤
      cfg.risk_limits.reference_account_size_usdt * cfg.profile.risk_per_trade_pct
    calc applyPrecision si (cfg.risk_limits.reference_account_size_usdt *
          cfg.profile.risk_per_trade_pct / |entry - sl|) * |entry - sl|
        ≤ (cfg.risk_limits.reference_account_size_usdt *
            cfg.profile.risk_per_trade_pct / |entry - sl|) * |entry - sl| :=
          mul_le_mul_of_nonneg_right hqle hd.le
      _ = cfg.risk_limits.reference_account_size_usdt * cfg.profile.risk_per_trade_pct :=
          div_mul_cancel₀ _ (ne_of_gt hd)
  · with_unfolding_all rfl

/-- Witness for C7: the spec scenario, with the general part instantiated at
the same inputs to check the never-exceeds-risk bound. -/
theorem riskEvaluate_floors_qty_to_step_witness :
    riskEvaluate cfgEx instBTC 100 99 102 =
      Except.ok { qty := 10, entry_price := 100, sl_price := 99, tp_price := 102,
                  risk_amount := 10 } ∧
    (10 : ℚ) = cfgEx.risk_limits.reference_account_size_usdt *
      cfgEx.profile.risk_per_trade_pct ∧
    (10 : ℚ) * |100 - 99| ≤ 10 := by
  have hok := riskEvaluate_floors_qty_to_step.2
  have h := riskEvaluate_floors_qty_to_step.1 cfgEx instBTC 100 99 102 1000
    (by norm_num [instBTC]) (by norm_num)
    (by norm_num [cfgEx]) (by norm_num [cfgEx]) _ hok
  exact ⟨hok, h.1, by simpa using h.2.2.2⟩

/-- A configuration whose per-trade risk budget is zero, so every sized
quantity floors to zero and trips the exchange-minimum check. -/
def cfgZeroRisk : BotConfig :=
  { cfgEx with profile := { cfgEx.profile with risk_per_trade_pct := 0 } }

/-- Claim C8: `RiskManager.evaluate` fails with the invalid-input error
exactly when `|entry - sl| ≤ 0` (equivalently, exactly on a zero stop
distance, i.e. `entry = sl`), otherwise fails with the below-minimum error
exactly when the quantity floored to the instrument step is below the
instrument's minimum quantity; a failing call yields no `RiskResult` (the
function is pure, so there are no side effects to undo). -/
theorem riskEvaluate_failure_modes (cfg : BotConfig) (si : SymbolInfo)
    (entry sl tp : ℚ) (n : ℤ)
    (hstep : si.qty_step = 1 / (n : ℚ)) (hn : 1 ≤ n)
    (href : 0 ≤ cfg.risk_limits.reference_account_size_usdt)
    (hpct : 0 ≤ cfg.profile.risk_per_trade_pct) :
    (riskEvaluate cfg si entry sl tp = Except.error RiskError.invalidStopDistance ↔
      |entry - sl| ≤ 0) ∧
    (|entry - sl| ≤ 0 ↔ entry = sl) ∧
    (riskEvaluate cfg si entry sl tp = Except.error RiskError.belowExchangeMinimum ↔
      0 < |entry - sl| ∧
      (⌊(cfg.risk_limits.reference_account_size_usdt * cfg.profile.risk_per_trade_pct /
          |entry - sl|) / si.qty_step⌋ : ℚ) * si.qty_step < si.min_qty) ∧
    (∀ e, riskEvaluate cfg si entry sl tp = Except.error e →
      ∀ r, riskEvaluate cfg si entry sl tp ≠ Except.ok r) := by
  have habs : |entry - sl| ≤ 0 ↔ entry = sl := by
    rw [abs_nonpos_iff, sub_eq_zero]
  by_cases h1 : |entry - sl| ≤ 0
  · have he : riskEvaluate cfg si entry sl tp =
        Except.error RiskError.invalidStopDistance := by
      simp only [riskEvaluate]
      rw [if_pos h1]
    refine ⟨⟨fun _ => h1, fun _ => he⟩, habs, ⟨?_, ?_⟩, ?_⟩
    · intro hcontra
      rw [he] at hcontra
      simp at hcontra
    · rintro ⟨hd, -⟩
      exact absurd h1 (not_le.mpr hd)
    · intro e _ r
      rw [he]
      simp
  · have hd : 0 < |entry - sl| := lt_of_not_le h1
    have happ := applyPrecision_eq_floor si n hstep
      (cfg.risk_limits.reference_account_size_usdt * cfg.profile.risk_per_trade_pct /
        |entry - sl|)
      (div_nonneg (mul_nonneg href hpct) hd.le) (le_trans zero_le_one hn)
    by_cases h2 : applyPrecision si
        (cfg.risk_limits.reference_account_size_usdt * cfg.profile.risk_per_trade_pct /
          |entry - sl|) < si.min_qty
    · have he : riskEvaluate cfg si entry sl tp =
          Except.error RiskError.belowExchangeMinimum := by
        simp only [riskEvaluate]
        rw [if_neg h1, if_pos h2]
      refine ⟨⟨fun hcontra => ?_, fun hle => absurd hle h1⟩, habs,
        ⟨fun _ => ⟨hd, ?_⟩, fun _ => he⟩, ?_⟩
      · rw [he] at hcontra
        simp at hcontra
      · rw [← happ]
        exact h2
      · intro e _ r
        rw [he]
        simp
    · have he : riskEvaluate cfg si entry sl tp =
          Except.ok
            { qty := applyPrecision si
                (cfg.risk_limits.reference_account_size_usdt *
                  cfg.profile.risk_per_trade_pct / |entry - sl|)
              entry_price := entry
              sl_price := sl
              tp_price := tp
              risk_amount := cfg.risk_limits.reference_account_size_usdt *
                cfg.profile.risk_per_trade_pct } := by
        simp only [riskEvaluate]
        rw [if_neg h1, if_neg h2]
      refine ⟨⟨fun hcontra => ?_, fun hle => absurd hle h1⟩, habs,
        ⟨fun hcontra => ?_, ?_⟩, ?_⟩
      · rw [he] at hcontra
        simp at hcontra
      · rw [he] at hcontra
        simp at hcontra
      · rintro ⟨-, hflt⟩
        rw [← happ] at hflt
        exact absurd hflt h2
      · intro e hval
        rw [he] at hval
        simp at hval

/-- Witness for C8: a zero stop distance fails with the invalid-input error,
and a zero risk budget floors the quantity to zero, failing the
exchange-minimum check. -/
theorem riskEvaluate_failure_modes_witness :
    riskEvaluate cfgEx instBTC 100 100 102 =
      Except.error RiskError.invalidStopDistance ∧
    riskEvaluate cfgZeroRisk instBTC 100 99 102 =
      Except.error RiskError.belowExchangeMinimum := by
  constructor
  · exact (riskEvaluate_failure_modes cfgEx instBTC 100 100 102 1000
      (by norm_num [instBTC]) (by norm_num) (by norm_num [cfgEx])
      (by norm_num [cfgEx])).1.mpr (by norm_num)
  · exact (riskEvaluate_failure_modes cfgZeroRisk instBTC 100 99 102 1000
      (by norm_num [instBTC]) (by norm_num) (by norm_num [cfgZeroRisk, cfgEx])
      (by norm_num [cfgZeroRisk, cfgEx])).2.2.1.mpr
      ⟨by norm_num, by norm_num [cfgZeroRisk, cfgEx, instBTC]⟩

/- ------------------------------------------------------------------
OrderExecutor theorems (claims C1, C6 and C10)
------------------------------------------------------------------ -/

lemma refreshScan_none_time_stop (now nowMs : Int) :
    ∀ (rows : List PosRow) (t : ActiveTrade),
      refreshScan none now nowMs rows = some t → t.time_stop_minutes = 0 := by
  intro rows
  induction rows with
  | nil => intro t h; cases h
  | cons row rest ih =>
    intro t h
    unfold refreshScan at h
    by_cases hz : row.size = 0
    · rw [if_pos hz] at h
      exact ih t h
    · rw [if_neg hz] at h
      injection h with h'
      rw [← h']

/-- Claim C10: a position recovered by `refresh_active_trade` while no
ActiveTrade was held in memory gets `time_stop_minutes = 0`, and therefore
`is_time_stop_reached` is false at every instant: the time-stop never fires
for a position recovered after a restart. -/
theorem recovered_trade_never_time_stops (client : BybitClient) (now nowMs : Int)
    (s : ExecutorState) (hnone : s.activeTrade = none) (t : ActiveTrade)
    (ht : (refreshActiveTrade client now nowMs s).2 = some t) :
    t.time_stop_minutes = 0 ∧ ∀ n' : Int, t.isTimeStopReached n' = false := by
  unfold refreshActiveTrade at ht
  rw [hnone] at ht
  have h0 : t.time_stop_minutes = 0 := by
    cases hscan : refreshScan none now nowMs client.positionRows with
    | none => rw [hscan] at ht; simp at ht
    | some t' =>
      rw [hscan] at ht
      simp only at ht
      injection ht with ht'
      exact ht' ▸ refreshScan_none_time_stop now nowMs client.positionRows t' hscan
  refine ⟨h0, fun n' => ?_⟩
  unfold ActiveTrade.isTimeStopReached
  rw [h0]
  rw [if_pos (le_refl (0 : Int))]

/-- A gateway snapshot reporting one open long position of size 1, with no
execution history. -/
def clientRec : BybitClient :=
  { createOrderResp := Except.ok ⟨"oid1"⟩
    execPolls := fun _ => []
    positionRows := [{ size := 1, side := "Buy", stopLoss := 95, takeProfit := 105,
                       entryPrice := 100, positionIdx := 0 }]
    execsSince := fun _ => [] }

/-- The trade that `refresh_active_trade` reconstructs from `clientRec` at
time 50 s / 50000 ms with an empty slot. -/
def tradeRec0 : ActiveTrade :=
  { side := "LONG", qty := 1, entry_price := 100, sl_price := 95, tp_price := 105,
    opened_at := 50, entry_order_id := "0", time_stop_minutes := 0,
    entry_exec_time_ms := 50000, last_exec_time_ms := 50000 }

/-- Witness for C10 on the concrete recovered position. -/
theorem recovered_trade_never_time_stops_witness :
    (refreshActiveTrade clientRec 50 50000 ⟨none⟩).2 = some tradeRec0 ∧
    tradeRec0.time_stop_minutes = 0 ∧
    tradeRec0.isTimeStopReached 1000000000 = false := by
  have hre : (refreshActiveTrade clientRec 50 50000 ⟨none⟩).2 = some tradeRec0 := by
    with_unfolding_all rfl
  have h := recovered_trade_never_time_stops clientRec 50 50000 ⟨none⟩ rfl tradeRec0 hre
  exact ⟨hre, h.1, h.2 1000000000⟩

/-- A gateway that accepts the closing order but whose execution feed never
shows a matching fill (and still reports the position as open). -/
def clientNoFill : BybitClient :=
  { createOrderResp := Except.ok ⟨"oid1"⟩
    execPolls := fun _ => []
    positionRows := [{ size := 1, side := "Buy", stopLoss := 95, takeProfit := 105,
                       entryPrice := 100, positionIdx := 0 }]
    execsSince := fun _ => [] }

/-- A long trade held in the executor slot. -/
def tradeLong0 : ActiveTrade :=
  { side := "LONG", qty := 1, entry_price := 100, sl_price := 99, tp_price := 102,
    opened_at := 0, entry_order_id := "e1", time_stop_minutes := 30,
    entry_exec_time_ms := 1000, last_exec_time_ms := 1000 }

/-- Counterexample to claim C1 as stated: the closing market order is
submitted (`createOrderResp` is a success), the bounded execution poll finds
no confirming fill, the gateway still reports a non-zero open position —
and `close_trade` nevertheless clears the ActiveTrade slot and returns no
price. -/
theorem closeTrade_clears_slot_without_fill :
    clientNoFill.createOrderResp = Except.ok ⟨"oid1"⟩ ∧
    fetchFill clientNoFill "oid1" = none ∧
    clientNoFill.positionRows.map (fun r => r.size) = [1] ∧
    closeTrade clientNoFill none ⟨some tradeLong0⟩ =
      Except.ok (⟨none⟩, none) := by
  refine ⟨rfl, ?_, rfl, ?_⟩ <;> with_unfolding_all rfl

/-- Claim C1 (amended): `close_trade` leaves the ActiveTrade slot untouched
only when the closing order submission itself fails (the gateway exception
propagates before the slot is written); once the closing market order has
been submitted, the slot is always cleared — even when the bounded
execution poll discovers no confirming fill and no flat position has been
confirmed — and the returned exit price is the discovered fill price, or
nothing when none was found. -/
theorem closeTrade_clears_after_submission (client : BybitClient) (price : Option ℚ)
    (s : ExecutorState) (t : ActiveTrade) (ht : s.activeTrade = some t) :
    (∀ e, client.createOrderResp = Except.error e →
      closeTrade client price s = Except.error e) ∧
    (∀ resp, client.createOrderResp = Except.ok resp →
      ∃ p, closeTrade client price s = Except.ok (⟨none⟩, p) ∧
        (fetchFill client resp.orderId = none → p = none) ∧
        (∀ fp et, fetchFill client resp.orderId = some (fp, et) → p = some fp)) := by
  unfold closeTrade
  rw [ht]
  constructor
  · intro e he
    rw [he]
  · intro resp hresp
    rw [hresp]
    cases hf : fetchFill client resp.orderId with
    | none =>
      simp only [hf]
      exact ⟨none, rfl, fun _ => rfl, fun fp et h => by simp [hf] at h⟩
    | some pe =>
      obtain ⟨fp0, et0⟩ := pe
      simp only [hf]
      refine ⟨some fp0, rfl, fun h => by simp [hf] at h, fun fp et h => ?_⟩
      injection h with h'
      injection h' with h1 h2
      rw [h1]

/-- Witness for the amended C1 on the no-fill gateway. -/
theorem closeTrade_clears_after_submission_witness :
    (⟨some tradeLong0⟩ : ExecutorState).activeTrade = some tradeLong0 ∧
    closeTrade clientNoFill none ⟨some tradeLong0⟩ = Except.ok (⟨none⟩, none) := by
  obtain ⟨p, hp, hnone, -⟩ :=
    (closeTrade_clears_after_submission clientNoFill none ⟨some tradeLong0⟩
      tradeLong0 rfl).2 ⟨"oid1"⟩ rfl
  rw [hnone (by with_unfolding_all rfl)] at hp
  exact ⟨rfl, hp⟩

/-- The closing-side condition of `_find_exit_fill`: a SELL execution closes
a LONG trade and a BUY execution closes a SHORT trade. -/
def closesSide (t : ActiveTrade) (row : ExecRow) : Prop :=
  (t.side = "LONG" ∧ row.side.toUpper = "SELL") ∨
  (t.side = "SHORT" ∧ row.side.toUpper = "BUY")

instance (t : ActiveTrade) (row : ExecRow) : Decidable (closesSide t row) := by
  unfold closesSide
  infer_instance

lemma findExitScan_none (t : ActiveTrade) :
    ∀ l : List ExecRow,
      (∀ row ∈ l, ¬(t.last_exec_time_ms < row.execTime ∧ closesSide t row)) →
      findExitScan t l = none := by
  intro l
  induction l with
  | nil => intro _; rfl
  | cons row rest ih =>
    intro h
    unfold findExitScan
    by_cases h1 : row.execTime ≤ t.last_exec_time_ms
    · rw [if_pos h1]
      exact ih fun r hr => h r (List.mem_cons_of_mem _ hr)
    · have hlt : t.last_exec_time_ms < row.execTime := lt_of_not_le h1
      have hno := h row (List.mem_cons_self _ _)
      rw [if_neg h1, if_neg (fun hc => hno ⟨hlt, Or.inl hc⟩),
        if_neg (fun hc => hno ⟨hlt, Or.inr hc⟩)]
      exact ih fun r hr => h r (List.mem_cons_of_mem _ hr)

lemma findExitScan_found (t : ActiveTrade) :
    ∀ l : List ExecRow,
      l.Pairwise (fun a b => a.execTime ≤ b.execTime) →
      (∃ row ∈ l, t.last_exec_time_ms < row.execTime ∧ closesSide t row) →
      ∃ row ∈ l, t.last_exec_time_ms < row.execTime ∧ closesSide t row ∧
        findExitScan t l =
          some (row.execPrice, { t with last_exec_time_ms := row.execTime }) ∧
        ∀ r ∈ l, t.last_exec_time_ms < r.execTime → closesSide t r →
          row.execTime ≤ r.execTime := by
  intro l
  induction l with
  | nil =>
    rintro - ⟨row, hmem, -⟩
    cases hmem
  | cons a rest ih =>
    intro hpw hex
    rw [List.pairwise_cons] at hpw
    obtain ⟨hhead, htail⟩ := hpw
    by_cases h1 : a.execTime ≤ t.last_exec_time_ms
    · have hex' : ∃ row ∈ rest, t.last_exec_time_ms < row.execTime ∧ closesSide t row := by
        obtain ⟨row, hmem, hlt, hcl⟩ := hex
        rcases List.mem_cons.mp hmem with heq | hmem'
        · subst heq
          exact absurd hlt (not_lt.mpr h1)
        · exact ⟨row, hmem', hlt, hcl⟩
      obtain ⟨row, hmem, hlt, hcl, heq, hmin⟩ := ih htail hex'
      refine ⟨row, List.mem_cons_of_mem _ hmem, hlt, hcl, ?_, ?_⟩
      · unfold findExitScan
        rw [if_pos h1]
        exact heq
      · intro r hr hltr hclr
        rcases List.mem_cons.mp hr with heqr | hr'
        · subst heqr
          exact absurd hltr (not_lt.mpr h1)
        · exact hmin r hr' hltr hclr
    · have hlt : t.last_exec_time_ms < a.execTime := lt_of_not_le h1
      by_cases hA : t.side = "LONG" ∧ a.side.toUpper = "SELL"
      · refine ⟨a, List.mem_cons_self _ _, hlt, Or.inl hA, ?_, ?_⟩
        · unfold findExitScan
          rw [if_neg h1, if_pos hA]
        · intro r hr _ _
          rcases List.mem_cons.mp hr with heqr | hr'
          · subst heqr
            exact le_refl _
          · exact hhead r hr'
      · by_cases hB : t.side = "SHORT" ∧ a.side.toUpper = "BUY"
        · refine ⟨a, List.mem_cons_self _ _, hlt, Or.inr hB, ?_, ?_⟩
          · unfold findExitScan
            rw [if_neg h1, if_neg hA, if_pos hB]
          · intro r hr _ _
            rcases List.mem_cons.mp hr with heqr | hr'
            · subst heqr
              exact le_refl _
            · exact hhead r hr'
        · have hnocl : ¬ closesSide t a := fun hc => hc.elim hA hB
          have hex' : ∃ row ∈ rest, t.last_exec_time_ms < row.execTime ∧ closesSide t row := by
            obtain ⟨row, hmem, hlt', hcl⟩ := hex
            rcases List.mem_cons.mp hmem with heqr | hmem'
            · subst heqr
              exact absurd hcl hnocl
            · exact ⟨row, hmem', hlt', hcl⟩
          obtain ⟨row, hmem, hlt', hcl, heq, hmin⟩ := ih htail hex'
          refine ⟨row, List.mem_cons_of_mem _ hmem, hlt', hcl, ?_, ?_⟩
          · unfold findExitScan
            rw [if_neg h1, if_neg hA, if_neg hB]
            exact heq
          · intro r hr hltr hclr
            rcases List.mem_cons.mp hr with heqr | hr'
            · subst heqr
              exact absurd hclr hnocl
            · exact hmin r hr' hltr hclr

lemma findExitFill_spec (client : BybitClient) (t : ActiveTrade) :
    ((∀ row ∈ client.execsSince t.entry_exec_time_ms,
        ¬(t.last_exec_time_ms < row.execTime ∧ closesSide t row)) →
      findExitFill client t = none) ∧
    ((∃ row ∈ client.execsSince t.entry_exec_time_ms,
        t.last_exec_time_ms < row.execTime ∧ closesSide t row) →
      ∃ row ∈ client.execsSince t.entry_exec_time_ms,
        t.last_exec_time_ms < row.execTime ∧ closesSide t row ∧
        findExitFill client t =
          some (row.execPrice, { t with last_exec_time_ms := row.execTime }) ∧
        ∀ r ∈ client.execsSince t.entry_exec_time_ms,
          t.last_exec_time_ms < r.execTime → closesSide t r →
            row.execTime ≤ r.execTime) := by
  have hperm := List.mergeSort_perm (client.execsSince t.entry_exec_time_ms)
    (fun a b => decide (a.execTime ≤ b.execTime))
  constructor
  · intro hno
    simp only [findExitFill]
    split_ifs with hnil
    · rfl
    · exact findExitScan_none t _ fun row hrow => hno row (hperm.mem_iff.mp hrow)
  · intro hex
    have hnil : ¬ client.execsSince t.entry_exec_time_ms = [] := by
      obtain ⟨row, hmem, -⟩ := hex
      exact List.ne_nil_of_mem hmem
    have htrans : ∀ (a b c : ExecRow), decide (a.execTime ≤ b.execTime) = true →
        decide (b.execTime ≤ c.execTime) = true →
        decide (a.execTime ≤ c.execTime) = true := by
      intro a b c hab hbc
      simp only [decide_eq_true_eq] at *
      exact le_trans hab hbc
    have htotal : ∀ (a b : ExecRow),
        (decide (a.execTime ≤ b.execTime) || decide (b.execTime ≤ a.execTime)) = true := by
      intro a b
      rcases Int.le_total a.execTime b.execTime with h | h <;> simp [h]
    have hsorted : (List.mergeSort (client.execsSince t.entry_exec_time_ms)
        (fun a b => decide (a.execTime ≤ b.execTime))).Pairwise
          (fun a b => a.execTime ≤ b.execTime) := by
      have h := List.sorted_mergeSort htrans htotal (client.execsSince t.entry_exec_time_ms)
      exact h.imp fun hab => of_decide_eq_true hab
    have hex' : ∃ row ∈ List.mergeSort (client.execsSince t.entry_exec_time_ms)
        (fun a b => decide (a.execTime ≤ b.execTime)),
        t.last_exec_time_ms < row.execTime ∧ closesSide t row := by
      obtain ⟨row, hmem, hrest⟩ := hex
      exact ⟨row, hperm.mem_iff.mpr hmem, hrest⟩
    obtain ⟨row, hmem, hlt, hcl, heq, hmin⟩ := findExitScan_found t _ hsorted hex'
    refine ⟨row, hperm.mem_iff.mp hmem, hlt, hcl, ?_, ?_⟩
    · simp only [findExitFill]
      rw [if_neg hnil]
      exact heq
    · intro r hr hltr hclr
      exact hmin r (hperm.mem_iff.mpr hr) hltr hclr

/-- Claim C6: while the gateway reports a non-zero total open position size,
`poll_trade_close` returns nothing and leaves the slot and the trade
untouched; once flat, it returns the price of the earliest execution
strictly after the trade's watermark whose side closes the trade (SELL for
LONG, BUY for SHORT), advancing the watermark to that execution's
timestamp, and returns nothing when no such execution exists.  Position
sizes reported by the gateway are magnitudes, hence the non-negativity
hypothesis. -/
theorem pollTradeClose_spec (client : BybitClient) (s : ExecutorState) (t : ActiveTrade)
    (hnn : ∀ r ∈ client.positionRows, 0 ≤ r.size) :
    ((client.positionRows.map fun r => r.size).sum ≠ 0 →
      pollTradeClose client s t = (s, t, none)) ∧
    ((client.positionRows.map fun r => r.size).sum = 0 →
      (∀ row ∈ client.execsSince t.entry_exec_time_ms,
        ¬(t.last_exec_time_ms < row.execTime ∧ closesSide t row)) →
      pollTradeClose client s t = (⟨none⟩, t, none)) ∧
    ((client.positionRows.map fun r => r.size).sum = 0 →
      (∃ row ∈ client.execsSince t.entry_exec_time_ms,
        t.last_exec_time_ms < row.execTime ∧ closesSide t row) →
      ∃ row ∈ client.execsSince t.entry_exec_time_ms,
        t.last_exec_time_ms < row.execTime ∧ closesSide t row ∧
        pollTradeClose client s t =
          (⟨none⟩, { t with last_exec_time_ms := row.execTime }, some row.execPrice) ∧
        ∀ r ∈ client.execsSince t.entry_exec_time_ms,
          t.last_exec_time_ms < r.execTime → closesSide t r →
            row.execTime ≤ r.execTime) := by
  have hsum0 : 0 ≤ (client.positionRows.map fun r => r.size).sum := by
    apply List.sum_nonneg
    intro x hx
    obtain ⟨r, hr, rfl⟩ := List.mem_map.mp hx
    exact hnn r hr
  refine ⟨?_, ?_, ?_⟩
  · intro hne
    simp only [pollTradeClose]
    rw [if_pos (lt_of_le_of_ne hsum0 (Ne.symm hne))]
  · intro hz hno
    simp only [pollTradeClose]
    rw [if_neg (by rw [hz]; exact lt_irrefl 0), (findExitFill_spec client t).1 hno]
  · intro hz hex
    obtain ⟨row, hmem, hlt, hcl, heq, hmin⟩ := (findExitFill_spec client t).2 hex
    refine ⟨row, hmem, hlt, hcl, ?_, hmin⟩
    simp only [pollTradeClose]
    rw [if_neg (by rw [hz]; exact lt_irrefl 0), heq]

/-- The single closing SELL fill used to exercise the flat branch of
`poll_trade_close`. -/
def rowSell : ExecRow :=
  { orderId := "x1", execPrice := 101, execTime := 5000, side := "Sell" }

/-- A gateway reporting a flat position and exactly one SELL fill after the
watermark. -/
def clientFlat : BybitClient :=
  { createOrderResp := Except.ok ⟨"oid1"⟩
    execPolls := fun _ => []
    positionRows := []
    execsSince := fun _ => [rowSell] }

/-- Witness for C6: with a flat position and one SELL fill at t=5000 past
the watermark 1000, `poll_trade_close` returns its price 101 and advances
the watermark. -/
theorem pollTradeClose_spec_witness :
    (∀ r ∈ clientFlat.positionRows, 0 ≤ r.size) ∧
    pollTradeClose clientFlat ⟨some tradeLong0⟩ tradeLong0 =
      (⟨none⟩, { tradeLong0 with last_exec_time_ms := 5000 }, some 101) := by
  have hnn : ∀ r ∈ clientFlat.positionRows, 0 ≤ r.size := by
    intro r hr
    simp [clientFlat] at hr
  obtain ⟨row, hmem, -, -, heq, -⟩ :=
    (pollTradeClose_spec clientFlat ⟨some tradeLong0⟩ tradeLong0 hnn).2.2 rfl
      ⟨rowSell, List.mem_cons_self _ _, by decide, by with_unfolding_all decide⟩
  have hrow : row = rowSell := by
    simpa [clientFlat] using hmem
  subst hrow
  exact ⟨hnn, heq⟩

end ScalpV0
